import Mathlib

/-!
Verification of the customer order-history and cohort-migration pipeline
(`src/code/functions.py` and `src/code/data_output/fun.py`).

A DataFrame is modelled as a `List` of row structures.  Timestamps are
absolute second counts (`Nat`); `pandas.Series.dt.month` is modelled by
`monthOf`, the civil-calendar month of an epoch second count.  Monetary
amounts are modelled as `ℚ` (the code works with 64-bit floats; the spec
only calls them "non-negative numeric").  `round(2)` is modelled as exact
rounding to two decimal places on `ℚ`; the only claim about rounded
values is a tolerance bound that is insensitive to the tie-breaking rule.

`pandas.sort_values` followed by `groupby(...).shift(1)` makes customer
partitions contiguous, so the lag of a row is its immediate predecessor in
the sorted table when that predecessor has the same `customer_id`; the
model sorts with a stable insertion sort and pairs each row with its
predecessor (`lagged`).
-/

/-- Calendar month (1..12) of a timestamp given as seconds since
1970-01-01, by the standard civil-from-days conversion.  This models
`pd.to_datetime(...).dt.month`. -/
def monthOf (t : Nat) : Nat :=
  let z := t / 86400 + 719468
  let era := z / 146097
  let doe := z - era * 146097
  let yoe := (doe - doe / 1460 + doe / 36524 - doe / 146096) / 365
  let doy := doe - (365 * yoe + yoe / 4 - yoe / 100)
  let mp := (5 * doy + 2) / 153
  if mp < 10 then mp + 3 else mp - 9

/-- One input order event: the columns of the Event table that the core
pipeline reads (`order_id` is dropped by the code and omitted here). -/
structure Event where
  customer_id : Nat
  order_created_at : Nat
  order_total_amount : ℚ
  is_target : Bool
  active : Bool
deriving DecidableEq, Repr

/-- `customer_id` stringified, joined to the timestamp formatted to second
precision with the separator "||".  The second count is already at second
precision, so `toString` models the `strftime` formatting. -/
def unique_order_hash (e : Event) : String :=
  toString e.customer_id ++ "||" ++ toString e.order_created_at

/-- Membership test for the `(customer_id, is_target, order_created_month)`
group of `e`, the key of the monthly metrics. -/
def sameMonthGroup (e x : Event) : Bool :=
  x.customer_id == e.customer_id && x.is_target == e.is_target &&
    monthOf x.order_created_at == monthOf e.order_created_at

/-- Membership test for the `(customer_id, is_target)` group of `e`, the
key of the lifetime count. -/
def sameCustGroup (e x : Event) : Bool :=
  x.customer_id == e.customer_id && x.is_target == e.is_target

/-- A row of the processed table `df_final`. -/
structure OrderRow where
  customer_id : Nat
  order_created_at : Nat
  order_total_amount : ℚ
  is_target : Bool
  active : Bool
  order_created_month : Nat
  unique_order_hash : String
  total_amount_mes : ℚ
  ticket_medio : ℚ
  num_pedidos_mes : Nat
  num_pedidos_hist : Nat
  prev_order_time : Option Nat
  diff_days : Option Nat
deriving DecidableEq, Repr

/-- Build one output row from an event and its lag predecessor.  The
grouped `transform` aggregates (`count`, `sum`, `mean`) are value-based, so
they are computed against the whole input table; `transform('count')` on
`unique_order_hash` counts the non-null entries of the group and the hash
is never null, so it is the group size. -/
def mkRow (df : List Event) (ep : Event × Option Event) : OrderRow :=
  let e := ep.1
  let grp := df.filter (sameMonthGroup e)
  let pv : Option Nat :=
    match ep.2 with
    | some q => if q.customer_id == e.customer_id then some q.order_created_at else none
    | none => none
  { customer_id := e.customer_id
    order_created_at := e.order_created_at
    order_total_amount := e.order_total_amount
    is_target := e.is_target
    active := e.active
    order_created_month := monthOf e.order_created_at
    unique_order_hash := unique_order_hash e
    total_amount_mes := (grp.map (fun x => x.order_total_amount)).sum
    ticket_medio := (grp.map (fun x => x.order_total_amount)).sum / (grp.length : ℚ)
    num_pedidos_mes := grp.length
    num_pedidos_hist := (df.filter (sameCustGroup e)).length
    prev_order_time := pv
    diff_days := pv.map (fun p => (e.order_created_at - p) / 86400) }

/-- Sort key of `sort_values(by=['customer_id','order_created_at'],
ascending=[True, True])`. -/
def custTimeLe (a b : Event) : Prop :=
  a.customer_id < b.customer_id ∨
    (a.customer_id = b.customer_id ∧ a.order_created_at ≤ b.order_created_at)

instance : DecidableRel custTimeLe := fun a b =>
  inferInstanceAs (Decidable (a.customer_id < b.customer_id ∨
    (a.customer_id = b.customer_id ∧ a.order_created_at ≤ b.order_created_at)))

instance : IsTotal Event custTimeLe :=
  ⟨fun a b => by unfold custTimeLe; omega⟩

instance : IsTrans Event custTimeLe :=
  ⟨fun a b c hab hbc => by unfold custTimeLe at *; omega⟩

/-- Sort key of the final `sort_values(by=['customer_id','order_created_at'],
ascending=[False, True])`. -/
def custTimeDesc (a b : OrderRow) : Prop :=
  b.customer_id < a.customer_id ∨
    (a.customer_id = b.customer_id ∧ a.order_created_at ≤ b.order_created_at)

instance : DecidableRel custTimeDesc := fun a b =>
  inferInstanceAs (Decidable (b.customer_id < a.customer_id ∨
    (a.customer_id = b.customer_id ∧ a.order_created_at ≤ b.order_created_at)))

instance : IsTotal OrderRow custTimeDesc :=
  ⟨fun a b => by unfold custTimeDesc; omega⟩

instance : IsTrans OrderRow custTimeDesc :=
  ⟨fun a b c hab hbc => by unfold custTimeDesc at *; omega⟩

/-- Pair every row of a (customer-contiguous, time-sorted) table with its
immediate predecessor: `groupby('customer_id').shift(1)` after the sort. -/
def lagged (l : List Event) : List (Event × Option Event) :=
  l.zip (none :: l.map some)

/-- The `(order_created_month, is_target, active)` key of a row, used for
the distribution table. -/
def tripOf (e : Event) : Nat × Bool × Bool :=
  (monthOf e.order_created_at, e.is_target, e.active)

/-- A row of the distribution table `df_percent`. -/
structure PercentRow where
  order_created_month : Nat
  is_target : Bool
  active : Bool
  count : Nat
  total_month : Nat
  percentual : ℚ
deriving DecidableEq, Repr

/-- `.round(2)`: round to two decimal places. -/
def round2 (q : ℚ) : ℚ := (round (q * 100) : ℤ) / 100

/-- The distribution table: group sizes by `(order_created_month,
is_target, active)`, the per-month total, and the rounded percentage. -/
def df_percent_of (df : List Event) : List PercentRow :=
  ((df.map tripOf).dedup).map (fun k =>
    { order_created_month := k.1, is_target := k.2.1, active := k.2.2
      count := df.countP (fun e => tripOf e == k)
      total_month := ((((df.map tripOf).dedup).filter (fun k2 => k2.1 == k.1)).map
        (fun k2 => df.countP (fun e => tripOf e == k2))).sum
      percentual := round2 ((df.countP (fun e => tripOf e == k) : ℚ) /
        (((((df.map tripOf).dedup).filter (fun k2 => k2.1 == k.1)).map
          (fun k2 => df.countP (fun e => tripOf e == k2))).sum : ℚ) * 100) })

/-- `process_orders_pandas`: derive the month, the hash, the monthly and
lifetime metrics, the lag columns, and the distribution table; return the
final table sorted by `customer_id` descending, `order_created_at`
ascending, together with `df_percent`. -/
def process_orders_pandas (df : List Event) : List OrderRow × List PercentRow :=
  let pct := df_percent_of df
  let sorted := List.insertionSort custTimeLe df
  let rows := (lagged sorted).map (mkRow df)
  (List.insertionSort custTimeDesc rows, pct)

/-! ## Cohort summary (`resumo_coorte_ativa`) -/

/-- The cohort end month: the month after the start month, December
wrapping to January. -/
def mes_coorte_fim (mes_coorte_inicio : Nat) : Nat :=
  if mes_coorte_inicio = 12 then 1 else mes_coorte_inicio + 1

/-- Distinct customers having an event in the cohort start month
(`id_coorte_inicio`). -/
def id_coorte_inicio (df : List OrderRow) (mes0 : Nat) : List Nat :=
  ((df.filter (fun r => r.order_created_month == mes0)).map
    (fun r => r.customer_id)).dedup

/-- The table restricted to cohort customers and to the two months of
interest (`df_coorte`). -/
def df_coorte (df : List OrderRow) (mes0 : Nat) : List OrderRow :=
  df.filter (fun r =>
    (id_coorte_inicio df mes0).contains r.customer_id &&
      (r.order_created_month == mes0 ||
        r.order_created_month == mes_coorte_fim mes0))

/-- A row of the pivoted cohort table: one row per `(customer_id,
is_target)`, with the `num_pedidos_mes` value of the start and end month
(`fillna(0)` makes a missing month a `0`, not a null). -/
structure PivotRow where
  customer_id : Nat
  is_target : Bool
  pedidos_inicio : Nat
  pedidos_fim : Nat
deriving DecidableEq, Repr

/-- The pivot step of the cohort summary (`df_pivotado`). -/
def df_pivotado (df : List OrderRow) (mes0 : Nat) : List PivotRow :=
  (((df_coorte df mes0).map (fun r => (r.customer_id, r.is_target))).dedup).map (fun k =>
    { customer_id := k.1, is_target := k.2
      pedidos_inicio := (((df_coorte df mes0).find? (fun r =>
          r.customer_id == k.1 && r.is_target == k.2 &&
            r.order_created_month == mes0)).map
        (fun r => r.num_pedidos_mes)).getD 0
      pedidos_fim := (((df_coorte df mes0).find? (fun r =>
          r.customer_id == k.1 && r.is_target == k.2 &&
            r.order_created_month == mes_coorte_fim mes0)).map
        (fun r => r.num_pedidos_mes)).getD 0 })

/-- A row of the final cohort summary. -/
structure ResumoRow where
  is_target : Bool
  pedidos_fim : Nat
  pedidos_inicio : Nat
  Total_Clientes : Nat
deriving DecidableEq, Repr

/-- The `(is_target, end-month count, start-month count)` key of the final
`groupby` of the cohort summary. -/
def resumoKey (p : PivotRow) : Bool × Nat × Nat :=
  (p.is_target, p.pedidos_fim, p.pedidos_inicio)

/-- `resumo_coorte_ativa`.  `DataFrame.pivot` raises when the
`(customer_id, is_target, order_created_month)` triples of the filtered
table are not unique, and the final `groupby` raises a `KeyError` when one
of the two month columns is absent from the pivot; both failure modes are
an `Except.error`.  `Total_Clientes` counts the (never-null) `is_target`
values of a group, that is, the group size. -/
def resumo_coorte_ativa (df : List OrderRow) (mes0 : Nat) :
    Except String (List ResumoRow) :=
  if ((df_coorte df mes0).map
      (fun r => (r.customer_id, r.is_target, r.order_created_month))).Nodup then
    if ((df_coorte df mes0).map (fun r => r.order_created_month)).contains mes0 &&
        ((df_coorte df mes0).map (fun r => r.order_created_month)).contains
          (mes_coorte_fim mes0) then
      .ok ((((df_pivotado df mes0).map resumoKey).dedup).map (fun g =>
        { is_target := g.1, pedidos_fim := g.2.1, pedidos_inicio := g.2.2
          Total_Clientes := ((df_pivotado df mes0).filter
            (fun p => resumoKey p == g)).length }))
    else .error "KeyError: missing month column"
  else .error "ValueError: Index contains duplicate entries, cannot reshape"

/-- Sum of the `Total_Clientes` column of a cohort summary. -/
def sumTotalClientes (res : List ResumoRow) : Nat :=
  (res.map (fun r => r.Total_Clientes)).sum

/-! ## Migration matrix (`matriz_migracao`) -/

/-- A row of `clientes_temp`: one row per `(customer_id, is_target)` with
the two presence flags. -/
structure ClienteFlags where
  customer_id : Nat
  is_target : Bool
  flag_0 : Nat
  flag_1 : Nat
deriving DecidableEq, Repr

/-- A row of the migration matrix. -/
structure MigRow where
  mes_0_flag : Nat
  mes_1_flag : Nat
  is_target : Bool
  total_clientes : Nat
deriving DecidableEq, Repr

/-- Per-customer presence flags (`clientes_temp`): group by
`(customer_id, is_target)` and flag whether any event of the group falls
in `mes_0` resp. `mes_1`. -/
def clientes_temp (df : List OrderRow) (mes_0 mes_1 : Nat) : List ClienteFlags :=
  ((df.map (fun r => (r.customer_id, r.is_target))).dedup).map (fun k =>
    { customer_id := k.1, is_target := k.2
      flag_0 := if df.any (fun r => r.customer_id == k.1 && r.is_target == k.2 &&
        r.order_created_month == mes_0) then 1 else 0
      flag_1 := if df.any (fun r => r.customer_id == k.1 && r.is_target == k.2 &&
        r.order_created_month == mes_1) then 1 else 0 })

/-- Final sort key of the migration matrix (`sort_values` on the two flag
columns). -/
def migLe (a b : MigRow) : Prop :=
  a.mes_0_flag < b.mes_0_flag ∨
    (a.mes_0_flag = b.mes_0_flag ∧ a.mes_1_flag ≤ b.mes_1_flag)

instance : DecidableRel migLe := fun a b =>
  inferInstanceAs (Decidable (a.mes_0_flag < b.mes_0_flag ∨
    (a.mes_0_flag = b.mes_0_flag ∧ a.mes_1_flag ≤ b.mes_1_flag)))

/-- The `(flag_0, flag_1, is_target)` key of the final `groupby` of the
migration matrix. -/
def migKey (c : ClienteFlags) : Nat × Nat × Bool :=
  (c.flag_0, c.flag_1, c.is_target)

/-- `matriz_migracao`: count the distinct customers of every
`(flag_0, flag_1, is_target)` combination of `clientes_temp`. -/
def matriz_migracao (df : List OrderRow) (mes_0 mes_1 : Nat) : List MigRow :=
  List.insertionSort migLe ((((clientes_temp df mes_0 mes_1).map migKey).dedup).map (fun g =>
    { mes_0_flag := g.1, mes_1_flag := g.2.1, is_target := g.2.2
      total_clientes := ((((clientes_temp df mes_0 mes_1).filter
          (fun c => migKey c == g)).map
        (fun c => c.customer_id)).dedup).length }))

/-- Sum of the `total_clientes` column of a migration matrix. -/
def sumMigClientes (res : List MigRow) : Nat :=
  (res.map (fun r => r.total_clientes)).sum

/-! ## Streaming loader (`execute_orders_etl`, `src/code/data_output/fun.py`)

The JSON line stream is modelled as a list of already-decoded lines, a
line that fails `json.loads` being `none`; extraction (the HTTP download
and gunzip) either fails or yields such a list, modelled by the `Except`
argument.  Column dropping acts inside each record and the final
`DataFrame` construction and `ingestion_date` stamp keep the record list
as it is, so records are opaque beyond their `customer_id`. -/

/-- One decoded order record: its `customer_id` and its remaining payload
(opaque). -/
structure OrderRecord where
  customer_id : Nat
  payload : Nat
deriving DecidableEq, Repr

/-- The streaming loop: skip undecodable lines, keep records whose
`customer_id` is in the filter set, and stop as soon as `max_sample`
records have been collected. -/
def stream_filter (ids : List Nat) (max_sample : Nat) (acc : List OrderRecord) :
    List (Option OrderRecord) → List OrderRecord
  | [] => acc
  | line :: rest =>
    if max_sample ≤ acc.length then acc
    else
      match line with
      | none => stream_filter ids max_sample acc rest
      | some r =>
        if ids.contains r.customer_id then
          stream_filter ids max_sample (acc ++ [r]) rest
        else stream_filter ids max_sample acc rest

/-- `execute_orders_etl`: `none` on extraction failure, `none` when no
streamed record matched the filter, otherwise the collected records. -/
def execute_orders_etl (fetch : Except String (List (Option OrderRecord)))
    (ids : List Nat) (max_sample : Nat) : Option (List OrderRecord) :=
  match fetch with
  | .error _ => none
  | .ok lines =>
    let recs := stream_filter ids max_sample [] lines
    if recs.isEmpty then none else some recs

/-! ## Concrete test tables -/

/-- The scenario table of the spec: customer 1 with events in months
1, 1, 2 (epoch seconds 0 and 86400 fall in January 1970, 2678400 on
February 1st) and amounts 10, 20, 30. -/
def scenDf : List Event :=
  [⟨1, 0, 10, true, true⟩, ⟨1, 86400, 20, true, true⟩,
    ⟨1, 2678400, 30, true, true⟩]

/-- Event table for the inter-order gap scenario: customer 1 with a single
event, customer 2 with two events three days and five seconds apart. -/
def gapDf : List Event :=
  [⟨2, 259205, 7, false, true⟩, ⟨1, 0, 5, true, true⟩,
    ⟨2, 0, 6, false, true⟩]

/-- A processed-table row for exercising the cohort and migration
builders; the columns those functions do not read are defaulted. -/
def mkTestRow (c : Nat) (tg : Bool) (m npm : Nat) : OrderRow :=
  { customer_id := c, order_created_at := 0, order_total_amount := 0,
    is_target := tg, active := true, order_created_month := m,
    unique_order_hash := "", total_amount_mes := 0, ticket_medio := 0,
    num_pedidos_mes := npm, num_pedidos_hist := npm,
    prev_order_time := none, diff_days := none }

/-- Cohort table in which customer 1 occurs with both `is_target` values
in the start month, and customer 2 supplies the end-month column. -/
def coorteSplitDf : List OrderRow :=
  [mkTestRow 1 true 12 1, mkTestRow 1 false 12 1,
    mkTestRow 2 true 12 1, mkTestRow 2 true 1 1]

/-- Cohort table for the December wraparound scenario: customer 2 present
only in month 12, customer 1 present in months 12 and 1. -/
def wrapDf : List OrderRow :=
  [mkTestRow 2 true 12 1, mkTestRow 1 true 12 1, mkTestRow 1 true 1 1]

/-- Migration table in which the single customer 1 occurs with both
`is_target` values. -/
def migSplitDf : List OrderRow :=
  [mkTestRow 1 true 1 1, mkTestRow 1 false 1 1]

/-! ## Generic grouping lemmas -/

theorem list_sum_map_add {β : Type} (ks : List β) (g h : β → ℕ) :
    (ks.map (fun b => g b + h b)).sum = (ks.map g).sum + (ks.map h).sum := by
  induction ks with
  | nil => simp
  | cons a t ih => simp [ih]; omega

theorem sum_map_ite_eq_one {β : Type} [DecidableEq β] (x : β) :
    ∀ ks : List β, ks.Nodup → x ∈ ks →
      (ks.map (fun b => if x = b then 1 else 0)).sum = 1
  | [], _, hx => absurd hx (by simp)
  | a :: t, hnd, hx => by
    rw [List.map_cons, List.sum_cons]
    rcases List.mem_cons.mp hx with h | h
    · subst h
      rw [if_pos rfl]
      have hxt : x ∉ t := (List.nodup_cons.mp hnd).1
      have hz : (t.map (fun b => if x = b then 1 else 0)).sum = 0 := by
        rw [List.sum_eq_zero_iff]
        intro y hy
        obtain ⟨b, hb, rfl⟩ := List.mem_map.mp hy
        rw [if_neg (fun (hxb : x = b) => hxt (hxb ▸ hb))]
      omega
    · have hax : x ≠ a := fun hxa => (List.nodup_cons.mp hnd).1 (hxa ▸ h)
      rw [if_neg hax, sum_map_ite_eq_one x t (List.nodup_cons.mp hnd).2 h]

/-- Summing the sizes of the fibers of `f` over a duplicate-free list of
keys covering `l` gives back the length of `l`: the groups of a `groupby`
partition the table. -/
theorem sum_filter_length_eq_length {α β : Type} [DecidableEq β] [BEq β] [LawfulBEq β]
    (l : List α) (f : α → β) (ks : List β) (hnd : ks.Nodup)
    (hcov : ∀ a ∈ l, f a ∈ ks) :
    (ks.map (fun b => (l.filter (fun a => f a == b)).length)).sum = l.length := by
  induction l with
  | nil => simp
  | cons a t ih =>
    have hcov' : ∀ x ∈ t, f x ∈ ks := fun x hx => hcov x (List.mem_cons_of_mem _ hx)
    have h1 : (ks.map (fun b => (List.filter (fun x => f x == b) (a :: t)).length)).sum
        = (ks.map (fun b => (if f a = b then 1 else 0) +
            (t.filter (fun x => f x == b)).length)).sum := by
      refine congrArg List.sum (List.map_congr_left fun b _ => ?_)
      by_cases h : f a = b
      · simp [List.filter_cons, beq_iff_eq, h]
        omega
      · simp [List.filter_cons, beq_iff_eq, h]
    rw [h1, list_sum_map_add,
      sum_map_ite_eq_one (f a) ks hnd (hcov a (List.mem_cons_self _ _)), ih hcov']
    simp [Nat.add_comm]

/-- Two duplicate-free lists with the same members have the same length. -/
theorem length_eq_of_nodup_iff_mem {β : Type} [DecidableEq β] {l1 l2 : List β}
    (h1 : l1.Nodup) (h2 : l2.Nodup) (h : ∀ b, b ∈ l1 ↔ b ∈ l2) :
    l1.length = l2.length := by
  rw [← List.toFinset_card_of_nodup h1, ← List.toFinset_card_of_nodup h2]
  congr 1
  ext b
  simp only [List.mem_toFinset]
  exact h b

/-- If a boolean predicate holds at most once in a list, two positions
where it holds coincide. -/
theorem countP_le_one_eq_of_getElem {α : Type} (l : List α) (p : α → Bool)
    (h : l.countP p ≤ 1) :
    ∀ i j (hi : i < l.length) (hj : j < l.length),
      p (l.get ⟨i, hi⟩) = true → p (l.get ⟨j, hj⟩) = true → i = j := by
  induction l with
  | nil =>
    intro i j hi
    exact absurd hi (by simp)
  | cons a t ih =>
    intro i j hi hj hpi hpj
    match i, j with
    | 0, 0 => rfl
    | 0, j + 1 =>
      exfalso
      have hpa : p a = true := by simpa using hpi
      have hjt : j < t.length := by simpa using hj
      have hpj' : p (t.get ⟨j, hjt⟩) = true := by simpa using hpj
      have hpos : 0 < t.countP p :=
        List.countP_pos_iff.mpr ⟨_, List.get_mem t j hjt, hpj'⟩
      rw [List.countP_cons, if_pos hpa] at h
      omega
    | i + 1, 0 =>
      exfalso
      have hpa : p a = true := by simpa using hpj
      have hit : i < t.length := by simpa using hi
      have hpi' : p (t.get ⟨i, hit⟩) = true := by simpa using hpi
      have hpos : 0 < t.countP p :=
        List.countP_pos_iff.mpr ⟨_, List.get_mem t i hit, hpi'⟩
      rw [List.countP_cons, if_pos hpa] at h
      omega
    | i + 1, j + 1 =>
      have ht : t.countP p ≤ 1 := by
        rw [List.countP_cons] at h
        split at h <;> omega
      have hit : i < t.length := by simpa using hi
      have hjt : j < t.length := by simpa using hj
      have := ih ht i j hit hjt (by simpa using hpi) (by simpa using hpj)
      omega

/-! ## Lag (shift) access lemmas -/

theorem lagged_length (l : List Event) : (lagged l).length = l.length := by
  simp [lagged]

theorem lagged_getElem_zero (l : List Event) (h : 0 < (lagged l).length) :
    (lagged l).get ⟨0, h⟩ = (l.get ⟨0, by rwa [lagged_length] at h⟩, none) := by
  simp only [lagged, List.get_eq_getElem, List.getElem_zip]
  rfl

theorem lagged_getElem_succ (l : List Event) (i : Nat)
    (h : i + 1 < (lagged l).length) :
    (lagged l).get ⟨i + 1, h⟩ =
      (l.get ⟨i + 1, by rwa [lagged_length] at h⟩,
        some (l.get ⟨i, by rw [lagged_length] at h; omega⟩)) := by
  have h' : i + 1 < l.length := by rwa [lagged_length] at h
  simp only [lagged, List.get_eq_getElem, List.getElem_zip,
    List.getElem_cons_succ, List.getElem_map]

/-! ## Rounding lemmas -/

theorem round2_close (q : ℚ) : |round2 q - q| ≤ 1 / 200 := by
  have h := abs_sub_round (q * 100)
  rw [abs_sub_comm] at h
  have : round2 q - q = ((round (q * 100) : ℚ) - q * 100) / 100 := by
    unfold round2
    ring
  rw [this, abs_div]
  rw [show |(100 : ℚ)| = 100 by norm_num]
  linarith

theorem abs_sum_round2_sub_sum {γ : Type} (ks : List γ) (x : γ → ℚ) :
    |(ks.map (fun k => round2 (x k))).sum - (ks.map x).sum|
      ≤ (ks.length : ℚ) / 200 := by
  induction ks with
  | nil => simp
  | cons a t ih =>
    simp only [List.map_cons, List.sum_cons, List.length_cons]
    have h1 := round2_close (x a)
    have h2 : round2 (x a) + (t.map (fun k => round2 (x k))).sum -
        (x a + (t.map x).sum) = (round2 (x a) - x a) +
          ((t.map (fun k => round2 (x k))).sum - (t.map x).sum) := by ring
    rw [h2]
    calc |(round2 (x a) - x a) + ((t.map (fun k => round2 (x k))).sum - (t.map x).sum)|
        ≤ |round2 (x a) - x a| +
            |(t.map (fun k => round2 (x k))).sum - (t.map x).sum| := abs_add _ _
      _ ≤ 1 / 200 + (t.length : ℚ) / 200 := add_le_add h1 ih
      _ = ((t.length : ℚ) + 1) / 200 := by ring
      _ = (((t.length + 1 : ℕ)) : ℚ) / 200 := by push_cast; ring

/-! ## Claim theorems -/

/-- C9: on the empty input table `process_orders_pandas` returns the pair
of empty tables (and, being a total function of the model, raises no
error). -/
theorem process_orders_pandas_empty : process_orders_pandas [] = ([], []) := rfl

/-- Auxiliary for C10: when no streamed record matches the customer filter
the collection loop returns its accumulator unchanged. -/
theorem stream_filter_no_match (ids : List Nat) (n : Nat) (acc : List OrderRecord) :
    ∀ lines : List (Option OrderRecord),
      (∀ r : OrderRecord, some r ∈ lines → r.customer_id ∉ ids) →
      stream_filter ids n acc lines = acc := by
  intro lines
  induction lines with
  | nil => intro _; rfl
  | cons line rest ih =>
    intro h
    have h' : ∀ r : OrderRecord, some r ∈ rest → r.customer_id ∉ ids :=
      fun r hr => h r (List.mem_cons_of_mem _ hr)
    by_cases hb : n ≤ acc.length
    · cases line with
      | none => simp [stream_filter, hb]
      | some r => simp [stream_filter, hb]
    · cases line with
      | none => simp [stream_filter, hb, ih h']
      | some r =>
        have hnotin : r.customer_id ∉ ids := h r (List.mem_cons_self _ _)
        simp [stream_filter, hb, hnotin, ih h']

/-- C10: `execute_orders_etl` returns `none` on any extraction failure and
also returns `none` (not an empty table) whenever zero streamed records
match the `customer_ids` filter, so at its interface an empty match is
indistinguishable from a failed download. -/
theorem execute_orders_etl_none_cases :
    (∀ (msg : String) (ids : List Nat) (n : Nat),
      execute_orders_etl (.error msg) ids n = none) ∧
    (∀ (lines : List (Option OrderRecord)) (ids : List Nat) (n : Nat),
      (∀ r : OrderRecord, some r ∈ lines → r.customer_id ∉ ids) →
      execute_orders_etl (.ok lines) ids n = none) := by
  constructor
  · intro msg ids n
    rfl
  · intro lines ids n h
    have hdef : execute_orders_etl (.ok lines) ids n =
        (if (stream_filter ids n [] lines).isEmpty = true then none
          else some (stream_filter ids n [] lines)) := rfl
    rw [hdef, stream_filter_no_match ids n [] lines h]
    rfl

/-- Witness for C10 at concrete inputs: a failed fetch and a stream whose
only record has a customer outside the filter set both yield `none`. -/
theorem execute_orders_etl_none_cases_witness :
    execute_orders_etl (.error "connection reset") [1] 5 = none ∧
    execute_orders_etl (.ok [some ⟨7, 0⟩, none]) [1, 2] 5 = none :=
  ⟨execute_orders_etl_none_cases.1 "connection reset" [1] 5,
    execute_orders_etl_none_cases.2 [some ⟨7, 0⟩, none] [1, 2] 5 (by
      intro r hr
      simp only [List.mem_cons, Option.some.injEq, reduceCtorEq, List.not_mem_nil,
        or_false, false_or] at hr
      subst hr
      decide)⟩

/-- C8: for cohort start month 12 the end month is computed as 1, and in
the wraparound scenario the customer present only in month 12 appears in
the pivot with end-month count 0 (not dropped), and the summary succeeds
counting that customer under end-month count 0. -/
theorem resumo_coorte_wraparound :
    mes_coorte_fim 12 = 1 ∧
    (⟨2, true, 1, 0⟩ : PivotRow) ∈ df_pivotado wrapDf 12 ∧
    (resumo_coorte_ativa wrapDf 12).toOption =
      some [⟨true, 0, 1, 1⟩, ⟨true, 1, 1, 1⟩] := by decide

/-- C7: every row of the distribution table has a positive group `count`
and `total_month` at least that `count` (in particular nonzero), so the
`percentual` division never divides by zero. -/
theorem df_percent_no_div_zero :
    ∀ (df : List Event), ∀ r ∈ (process_orders_pandas df).2,
      0 < r.count ∧ r.count ≤ r.total_month := by
  intro df r hr
  replace hr : r ∈ df_percent_of df := hr
  unfold df_percent_of at hr
  obtain ⟨k, hk, rfl⟩ := List.mem_map.mp hr
  refine ⟨?_, ?_⟩
  · obtain ⟨e, he, hfe⟩ := List.mem_map.mp (List.mem_dedup.mp hk)
    exact List.countP_pos_iff.mpr ⟨e, he, by simp [hfe]⟩
  · refine List.single_le_sum (fun x _ => Nat.zero_le x) _ ?_
    refine List.mem_map_of_mem _ ?_
    exact List.mem_filter.mpr ⟨hk, by simp⟩

/-- Witness for C7: the first distribution row of the scenario table is in
the table and satisfies the bounds. -/
theorem df_percent_no_div_zero_witness :
    (process_orders_pandas scenDf).2.get ⟨0, by decide⟩ ∈ (process_orders_pandas scenDf).2 ∧
    (0 < ((process_orders_pandas scenDf).2.get ⟨0, by decide⟩).count ∧
      ((process_orders_pandas scenDf).2.get ⟨0, by decide⟩).count ≤
        ((process_orders_pandas scenDf).2.get ⟨0, by decide⟩).total_month) :=
  ⟨List.get_mem _ _ _,
    df_percent_no_div_zero scenDf _ (List.get_mem _ _ _)⟩

/-- Auxiliary: the rows of `clientes_temp` are determined by their
`(customer_id, is_target)` pair. -/
theorem clientes_temp_det (df : List OrderRow) (m0 m1 : Nat) :
    ∀ x ∈ clientes_temp df m0 m1, ∀ y ∈ clientes_temp df m0 m1,
      x.customer_id = y.customer_id → x.is_target = y.is_target → x = y := by
  intro x hx y hy h1 h2
  unfold clientes_temp at hx hy
  obtain ⟨kx, hkx, rfl⟩ := List.mem_map.mp hx
  obtain ⟨ky, hky, rfl⟩ := List.mem_map.mp hy
  have hk : kx = ky := Prod.ext h1 h2
  rw [hk]

/-- Auxiliary: `clientes_temp` has one row per distinct
`(customer_id, is_target)` pair, without duplicates. -/
theorem clientes_temp_nodup (df : List OrderRow) (m0 m1 : Nat) :
    (clientes_temp df m0 m1).Nodup := by
  unfold clientes_temp
  refine List.Nodup.map_on ?_ (List.nodup_dedup _)
  intro x hx y hy hf
  exact Prod.ext (congrArg ClienteFlags.customer_id hf)
    (congrArg ClienteFlags.is_target hf)

/-- C2 (amended): the sum of `total_clientes` over all rows of the
migration matrix equals the number of distinct `(customer_id, is_target)`
pairs of the input table (each pair lands in exactly one presence
combination); when no customer carries two `is_target` values this is the
number of distinct customers, but not in general. -/
theorem matriz_migracao_total :
    ∀ (df : List OrderRow) (mes_0 mes_1 : Nat),
      sumMigClientes (matriz_migracao df mes_0 mes_1) =
        ((df.map (fun r => (r.customer_id, r.is_target))).dedup).length := by
  intro df m0 m1
  have hdet := clientes_temp_det df m0 m1
  have hnd := clientes_temp_nodup df m0 m1
  unfold matriz_migracao sumMigClientes
  rw [List.Perm.sum_eq (List.Perm.map _ (List.perm_insertionSort _ _))]
  rw [List.map_map]
  have hcong : ∀ g ∈ ((clientes_temp df m0 m1).map migKey).dedup,
      ((((clientes_temp df m0 m1).filter (fun c => migKey c == g)).map
        (fun c => c.customer_id)).dedup).length =
      ((clientes_temp df m0 m1).filter (fun c => migKey c == g)).length := by
    intro g hg
    have hfnd : ((clientes_temp df m0 m1).filter (fun c => migKey c == g)).Nodup :=
      List.Nodup.filter _ hnd
    have hinj : ∀ x ∈ (clientes_temp df m0 m1).filter (fun c => migKey c == g),
        ∀ y ∈ (clientes_temp df m0 m1).filter (fun c => migKey c == g),
          x.customer_id = y.customer_id → x = y := by
      intro x hx y hy hxy
      have hxct := (List.mem_filter.mp hx).1
      have hyct := (List.mem_filter.mp hy).1
      have hgx : migKey x = g := by simpa using (List.mem_filter.mp hx).2
      have hgy : migKey y = g := by simpa using (List.mem_filter.mp hy).2
      have htg : x.is_target = y.is_target := by
        have h22 := congrArg (fun p => p.2.2) (hgx.trans hgy.symm)
        simpa [migKey] using h22
      exact hdet x hxct y hyct hxy htg
    have hmnd : (((clientes_temp df m0 m1).filter (fun c => migKey c == g)).map
        (fun c => c.customer_id)).Nodup :=
      List.Nodup.map_on hinj hfnd
    rw [List.dedup_eq_self.mpr hmnd, List.length_map]
  have hstep : (((clientes_temp df m0 m1).map migKey).dedup).map
      ((fun r : MigRow => r.total_clientes) ∘ (fun g =>
        ({ mes_0_flag := g.1, mes_1_flag := g.2.1, is_target := g.2.2
           total_clientes := ((((clientes_temp df m0 m1).filter
               (fun c => migKey c == g)).map
             (fun c => c.customer_id)).dedup).length } : MigRow))) =
      (((clientes_temp df m0 m1).map migKey).dedup).map (fun g =>
        ((clientes_temp df m0 m1).filter (fun c => migKey c == g)).length) :=
    List.map_congr_left (fun g hg => hcong g hg)
  rw [hstep]
  rw [sum_filter_length_eq_length (clientes_temp df m0 m1) migKey
    (((clientes_temp df m0 m1).map migKey).dedup) (List.nodup_dedup _)
    (fun c hc => List.mem_dedup.mpr (List.mem_map_of_mem _ hc))]
  unfold clientes_temp
  rw [List.length_map]

/-- Counterexample for C2 as stated: in `migSplitDf` the single customer 1
occurs with both `is_target` values, the matrix total is 2, but the table
has only one distinct `customer_id`. -/
theorem matriz_migracao_total_ce :
    sumMigClientes (matriz_migracao migSplitDf 1 2) ≠
      ((migSplitDf.map (fun r => r.customer_id)).dedup).length ∧
    sumMigClientes (matriz_migracao migSplitDf 1 2) = 2 ∧
    ((migSplitDf.map (fun r => r.customer_id)).dedup).length = 1 := by decide

/-- Counterexample for C1 as stated: in `coorteSplitDf` customer 1 is in
the month-12 cohort with both `is_target` values; the summary succeeds and
its `Total_Clientes` total is 3, while only 2 distinct customers have an
event in month 12. -/
theorem resumo_coorte_total_ce :
    (resumo_coorte_ativa coorteSplitDf 12).toOption.map sumTotalClientes ≠
      some ((id_coorte_inicio coorteSplitDf 12).length) ∧
    (resumo_coorte_ativa coorteSplitDf 12).toOption.map sumTotalClientes = some 3 ∧
    (id_coorte_inicio coorteSplitDf 12).length = 2 := by decide

/-- Auxiliary: when the second component of each pair is determined by the
first, deduplicating the pairs and deduplicating their first components
give the same number of entries. -/
theorem dedup_pairs_length (L : List (Nat × Bool))
    (hdet : ∀ p ∈ L, ∀ q ∈ L, p.1 = q.1 → p.2 = q.2) :
    L.dedup.length = ((L.map Prod.fst).dedup).length := by
  have h1 : (L.dedup.map Prod.fst).Nodup := by
    refine List.Nodup.map_on ?_ (List.nodup_dedup L)
    intro x hx y hy hf
    exact Prod.ext hf (hdet x (List.mem_dedup.mp hx) y (List.mem_dedup.mp hy) hf)
  have h2 : ((L.map Prod.fst).dedup).Nodup := List.nodup_dedup _
  have hm : ∀ b, b ∈ L.dedup.map Prod.fst ↔ b ∈ (L.map Prod.fst).dedup := by
    intro b
    simp [List.mem_map, List.mem_dedup]
  calc L.dedup.length = (L.dedup.map Prod.fst).length := (List.length_map _ _).symm
    _ = ((L.map Prod.fst).dedup).length := length_eq_of_nodup_iff_mem h1 h2 hm

/-- C1 (amended): whenever `resumo_coorte_ativa` succeeds and no customer
of the table carries two different `is_target` values, the sum of
`Total_Clientes` equals the number of distinct customers with an event in
the start month.  (Without the `is_target` hypothesis the sum counts
distinct `(customer_id, is_target)` pairs of the cohort instead, and the
function fails when a cohort customer has two events in one of the two
months.) -/
theorem resumo_coorte_total :
    ∀ (df : List OrderRow) (mes0 : Nat) (res : List ResumoRow),
      resumo_coorte_ativa df mes0 = .ok res →
      (∀ r1 ∈ df, ∀ r2 ∈ df, r1.customer_id = r2.customer_id →
        r1.is_target = r2.is_target) →
      sumTotalClientes res = (id_coorte_inicio df mes0).length := by
  intro df mes0 res hok huni
  unfold resumo_coorte_ativa at hok
  split at hok
  case isFalse => exact absurd hok (by simp)
  case isTrue =>
    split at hok
    case isFalse => exact absurd hok (by simp)
    case isTrue =>
      rw [Except.ok.injEq] at hok
      subst hok
      -- the summary total is the number of pivot rows
      unfold sumTotalClientes
      rw [List.map_map]
      have hstep : ((((df_pivotado df mes0).map resumoKey).dedup).map
          ((fun r : ResumoRow => r.Total_Clientes) ∘ (fun g =>
            ({ is_target := g.1, pedidos_fim := g.2.1, pedidos_inicio := g.2.2
               Total_Clientes := ((df_pivotado df mes0).filter
                 (fun p => resumoKey p == g)).length } : ResumoRow)))) =
          (((df_pivotado df mes0).map resumoKey).dedup).map (fun g =>
            ((df_pivotado df mes0).filter (fun p => resumoKey p == g)).length) :=
        List.map_congr_left (fun g _ => rfl)
      rw [hstep]
      rw [sum_filter_length_eq_length (df_pivotado df mes0) resumoKey
        (((df_pivotado df mes0).map resumoKey).dedup) (List.nodup_dedup _)
        (fun p hp => List.mem_dedup.mpr (List.mem_map_of_mem _ hp))]
      -- the pivot has one row per distinct (customer, target) pair of df_coorte
      unfold df_pivotado
      rw [List.length_map]
      -- determinacy of is_target inside df_coorte
      have hdet : ∀ p ∈ (df_coorte df mes0).map
          (fun r => (r.customer_id, r.is_target)), ∀ q ∈ (df_coorte df mes0).map
          (fun r => (r.customer_id, r.is_target)), p.1 = q.1 → p.2 = q.2 := by
        intro p hp q hq h1
        obtain ⟨rp, hrp, rfl⟩ := List.mem_map.mp hp
        obtain ⟨rq, hrq, rfl⟩ := List.mem_map.mp hq
        exact huni rp (List.mem_filter.mp hrp).1 rq (List.mem_filter.mp hrq).1 h1
      rw [dedup_pairs_length _ hdet]
      rw [List.map_map]
      -- distinct customers of df_coorte are exactly the cohort customers
      refine length_eq_of_nodup_iff_mem (List.nodup_dedup _) (List.nodup_dedup _) ?_
      intro b
      rw [List.mem_dedup]
      unfold id_coorte_inicio
      rw [List.mem_dedup]
      constructor
      · intro hmem0
        obtain ⟨r, hr, rfl⟩ := List.mem_map.mp hmem0
        have hmem := List.mem_filter.mp hr
        have hcond := hmem.2
        simp only [Bool.and_eq_true] at hcond
        have hin : (Prod.fst ∘ fun r : OrderRow => (r.customer_id, r.is_target)) r ∈
            id_coorte_inicio df mes0 := by
          have := hcond.1
          simpa using this
        unfold id_coorte_inicio at hin
        rw [List.mem_dedup] at hin
        exact hin
      · intro hb
        obtain ⟨r0, hr0, rfl⟩ := List.mem_map.mp hb
        have hr0f := List.mem_filter.mp hr0
        refine List.mem_map.mpr ⟨r0, ?_, rfl⟩
        refine List.mem_filter.mpr ⟨hr0f.1, ?_⟩
        have hbin : r0.customer_id ∈ id_coorte_inicio df mes0 := by
          unfold id_coorte_inicio
          rw [List.mem_dedup]
          exact List.mem_map.mpr ⟨r0, hr0, rfl⟩
        simp [hbin, hr0f.2]

/-- Witness for C1 (amended) on the wraparound table: the summary sums to
the 2 distinct cohort customers. -/
theorem resumo_coorte_total_witness :
    sumTotalClientes [⟨true, 0, 1, 1⟩, ⟨true, 1, 1, 1⟩] =
      (id_coorte_inicio wrapDf 12).length :=
  resumo_coorte_total wrapDf 12 _ rfl (by decide)

/-- C4: every row of the processed table carries `num_pedidos_mes` = the
count of events in its `(customer_id, is_target, order_created_month)`
group, `total_amount_mes` = the sum of `order_total_amount` over that
group and `ticket_medio` = its mean (sum over count). -/
theorem process_orders_metrics :
    ∀ (df : List Event), ∀ r ∈ (process_orders_pandas df).1,
      r.num_pedidos_mes = (df.filter (fun x =>
        x.customer_id == r.customer_id && x.is_target == r.is_target &&
          monthOf x.order_created_at == r.order_created_month)).length ∧
      r.total_amount_mes = ((df.filter (fun x =>
        x.customer_id == r.customer_id && x.is_target == r.is_target &&
          monthOf x.order_created_at == r.order_created_month)).map
        (fun x => x.order_total_amount)).sum ∧
      r.ticket_medio = ((df.filter (fun x =>
        x.customer_id == r.customer_id && x.is_target == r.is_target &&
          monthOf x.order_created_at == r.order_created_month)).map
        (fun x => x.order_total_amount)).sum /
        ((df.filter (fun x =>
          x.customer_id == r.customer_id && x.is_target == r.is_target &&
            monthOf x.order_created_at == r.order_created_month)).length : ℚ) := by
  intro df r hr
  replace hr : r ∈ (lagged (List.insertionSort custTimeLe df)).map (mkRow df) :=
    (List.perm_insertionSort custTimeDesc _).mem_iff.mp hr
  obtain ⟨ep, _, rfl⟩ := List.mem_map.mp hr
  exact ⟨rfl, rfl, rfl⟩

/-- Witness for C4 on the scenario table: its month-1 rows carry count 2,
total 30, mean 15; its month-2 row count 1, total 30, mean 30. -/
theorem process_orders_metrics_witness :
    (process_orders_pandas scenDf).1.get ⟨0, by decide⟩ ∈ (process_orders_pandas scenDf).1 ∧
    (((process_orders_pandas scenDf).1.get ⟨0, by decide⟩).num_pedidos_mes =
        (scenDf.filter (fun x =>
          x.customer_id == ((process_orders_pandas scenDf).1.get ⟨0, by decide⟩).customer_id &&
            x.is_target == ((process_orders_pandas scenDf).1.get ⟨0, by decide⟩).is_target &&
              monthOf x.order_created_at ==
                ((process_orders_pandas scenDf).1.get ⟨0, by decide⟩).order_created_month)).length ∧
      ((process_orders_pandas scenDf).1.get ⟨0, by decide⟩).total_amount_mes =
        ((scenDf.filter (fun x =>
          x.customer_id == ((process_orders_pandas scenDf).1.get ⟨0, by decide⟩).customer_id &&
            x.is_target == ((process_orders_pandas scenDf).1.get ⟨0, by decide⟩).is_target &&
              monthOf x.order_created_at ==
                ((process_orders_pandas scenDf).1.get ⟨0, by decide⟩).order_created_month)).map
          (fun x => x.order_total_amount)).sum ∧
      ((process_orders_pandas scenDf).1.get ⟨0, by decide⟩).ticket_medio =
        ((scenDf.filter (fun x =>
          x.customer_id == ((process_orders_pandas scenDf).1.get ⟨0, by decide⟩).customer_id &&
            x.is_target == ((process_orders_pandas scenDf).1.get ⟨0, by decide⟩).is_target &&
              monthOf x.order_created_at ==
                ((process_orders_pandas scenDf).1.get ⟨0, by decide⟩).order_created_month)).map
          (fun x => x.order_total_amount)).sum /
          ((scenDf.filter (fun x =>
            x.customer_id == ((process_orders_pandas scenDf).1.get ⟨0, by decide⟩).customer_id &&
              x.is_target == ((process_orders_pandas scenDf).1.get ⟨0, by decide⟩).is_target &&
                monthOf x.order_created_at ==
                  ((process_orders_pandas scenDf).1.get ⟨0, by decide⟩).order_created_month)).length : ℚ)) ∧
    ((process_orders_pandas scenDf).1.get ⟨0, by decide⟩).num_pedidos_mes = 2 ∧
    ((process_orders_pandas scenDf).1.get ⟨0, by decide⟩).total_amount_mes = 30 ∧
    ((process_orders_pandas scenDf).1.get ⟨0, by decide⟩).ticket_medio = 15 ∧
    ((process_orders_pandas scenDf).1.get ⟨2, by decide⟩).num_pedidos_mes = 1 ∧
    ((process_orders_pandas scenDf).1.get ⟨2, by decide⟩).total_amount_mes = 30 ∧
    ((process_orders_pandas scenDf).1.get ⟨2, by decide⟩).ticket_medio = 30 ∧
    ((process_orders_pandas scenDf).1.get ⟨0, by decide⟩).num_pedidos_hist = 3 :=
  ⟨List.get_mem _ _ _,
    process_orders_metrics scenDf _ (List.get_mem _ _ _),
    by decide,
    by norm_num [process_orders_pandas, mkRow, lagged, scenDf, List.insertionSort,
      List.orderedInsert, sameMonthGroup, sameCustGroup, monthOf, custTimeLe, custTimeDesc],
    by norm_num [process_orders_pandas, mkRow, lagged, scenDf, List.insertionSort,
      List.orderedInsert, sameMonthGroup, sameCustGroup, monthOf, custTimeLe, custTimeDesc],
    by decide,
    by norm_num [process_orders_pandas, mkRow, lagged, scenDf, List.insertionSort,
      List.orderedInsert, sameMonthGroup, sameCustGroup, monthOf, custTimeLe, custTimeDesc],
    by norm_num [process_orders_pandas, mkRow, lagged, scenDf, List.insertionSort,
      List.orderedInsert, sameMonthGroup, sameCustGroup, monthOf, custTimeLe, custTimeDesc],
    by decide⟩

/-- C5: for every row of the processed table, summing the sizes of the
customer's monthly groups over the distinct months of that
`(customer_id, is_target)` pair — by C4 the size of the `(customer_id,
is_target, m)` group is exactly the `num_pedidos_mes` value attached to
the month-`m` rows — yields `num_pedidos_hist`. -/
theorem process_orders_hist_sum :
    ∀ (df : List Event), ∀ r ∈ (process_orders_pandas df).1,
      ((((df.filter (fun x => x.customer_id == r.customer_id &&
            x.is_target == r.is_target)).map
          (fun x => monthOf x.order_created_at)).dedup).map (fun m =>
        ((df.filter (fun x => x.customer_id == r.customer_id &&
            x.is_target == r.is_target)).filter (fun x =>
          monthOf x.order_created_at == m)).length)).sum = r.num_pedidos_hist := by
  intro df r hr
  replace hr : r ∈ (lagged (List.insertionSort custTimeLe df)).map (mkRow df) :=
    (List.perm_insertionSort custTimeDesc _).mem_iff.mp hr
  obtain ⟨ep, _, rfl⟩ := List.mem_map.mp hr
  exact sum_filter_length_eq_length _ _ _ (List.nodup_dedup _)
    (fun a ha => List.mem_dedup.mpr (List.mem_map_of_mem _ ha))

/-- Witness for C5 on the scenario table: 2 orders in month 1 plus 1 in
month 2 give the lifetime count 3. -/
theorem process_orders_hist_sum_witness :
    (process_orders_pandas scenDf).1.get ⟨0, by decide⟩ ∈ (process_orders_pandas scenDf).1 ∧
    (((((scenDf.filter (fun x =>
          x.customer_id == ((process_orders_pandas scenDf).1.get ⟨0, by decide⟩).customer_id &&
            x.is_target == ((process_orders_pandas scenDf).1.get ⟨0, by decide⟩).is_target)).map
        (fun x => monthOf x.order_created_at)).dedup).map (fun m =>
      ((scenDf.filter (fun x =>
          x.customer_id == ((process_orders_pandas scenDf).1.get ⟨0, by decide⟩).customer_id &&
            x.is_target == ((process_orders_pandas scenDf).1.get ⟨0, by decide⟩).is_target)).filter
        (fun x => monthOf x.order_created_at == m)).length)).sum =
      ((process_orders_pandas scenDf).1.get ⟨0, by decide⟩).num_pedidos_hist) ∧
    ((process_orders_pandas scenDf).1.get ⟨0, by decide⟩).num_pedidos_hist = 3 :=
  ⟨List.get_mem _ _ _,
    process_orders_hist_sum scenDf _ (List.get_mem _ _ _),
    by decide⟩

/-- Auxiliary for C6: restricting the distribution table to one month is
the image of the month's grouping keys. -/
theorem df_percent_filter (df : List Event) (m : Nat) :
    (df_percent_of df).filter (fun r => r.order_created_month == m) =
      (((df.map tripOf).dedup).filter (fun k => k.1 == m)).map (fun k =>
        { order_created_month := k.1, is_target := k.2.1, active := k.2.2
          count := df.countP (fun e => tripOf e == k)
          total_month := ((((df.map tripOf).dedup).filter (fun k2 => k2.1 == k.1)).map
            (fun k2 => df.countP (fun e => tripOf e == k2))).sum
          percentual := round2 ((df.countP (fun e => tripOf e == k) : ℚ) /
            (((((df.map tripOf).dedup).filter (fun k2 => k2.1 == k.1)).map
              (fun k2 => df.countP (fun e => tripOf e == k2))).sum : ℚ) * 100) }) := by
  unfold df_percent_of
  rw [List.filter_map]
  exact congrArg _ (List.filter_congr (fun k _ => rfl))

/-- C6: within every month present in the distribution table the rounded
percentages sum to 100 up to 0.01 per group (each rounding moves a value
by at most 0.005). -/
theorem df_percent_sum_100 :
    ∀ (df : List Event) (m : Nat),
      (process_orders_pandas df).2.filter (fun r => r.order_created_month == m) ≠ [] →
      |(((process_orders_pandas df).2.filter
          (fun r => r.order_created_month == m)).map (fun r => r.percentual)).sum - 100|
        ≤ (((process_orders_pandas df).2.filter
            (fun r => r.order_created_month == m)).length : ℚ) / 100 := by
  intro df m hne
  have hdef : (process_orders_pandas df).2 = df_percent_of df := rfl
  rw [hdef] at hne ⊢
  rw [df_percent_filter] at hne ⊢
  rw [List.map_map, List.length_map]
  have hmap : (((df.map tripOf).dedup).filter (fun k => k.1 == m)).map
      ((fun r : PercentRow => r.percentual) ∘ (fun k =>
        ({ order_created_month := k.1, is_target := k.2.1, active := k.2.2
           count := df.countP (fun e => tripOf e == k)
           total_month := ((((df.map tripOf).dedup).filter (fun k2 => k2.1 == k.1)).map
             (fun k2 => df.countP (fun e => tripOf e == k2))).sum
           percentual := round2 ((df.countP (fun e => tripOf e == k) : ℚ) /
             (((((df.map tripOf).dedup).filter (fun k2 => k2.1 == k.1)).map
               (fun k2 => df.countP (fun e => tripOf e == k2))).sum : ℚ) * 100) } : PercentRow))) =
      (((df.map tripOf).dedup).filter (fun k => k.1 == m)).map (fun k =>
        round2 ((df.countP (fun e => tripOf e == k) : ℚ) /
          (((((df.map tripOf).dedup).filter (fun k2 => k2.1 == m)).map
            (fun k2 => df.countP (fun e => tripOf e == k2))).sum : ℚ) * 100)) := by
    refine List.map_congr_left (fun k hk => ?_)
    have hk1 : k.1 = m := by simpa using (List.mem_filter.mp hk).2
    simp only [Function.comp_apply]
    rw [hk1]
  rw [hmap]
  have hne' : ((df.map tripOf).dedup).filter (fun k => k.1 == m) ≠ [] := by
    intro h
    rw [h] at hne
    exact hne rfl
  obtain ⟨k0, hk0⟩ := List.exists_mem_of_ne_nil _ hne'
  have hc1 : ∀ k ∈ ((df.map tripOf).dedup).filter (fun k => k.1 == m),
      1 ≤ df.countP (fun e => tripOf e == k) := by
    intro k hk
    have hkt : k ∈ (df.map tripOf).dedup := (List.mem_filter.mp hk).1
    obtain ⟨e, he, hfe⟩ := List.mem_map.mp (List.mem_dedup.mp hkt)
    exact List.countP_pos_iff.mpr ⟨e, he, by simp [hfe]⟩
  have hT1 : 1 ≤ ((((df.map tripOf).dedup).filter (fun k2 => k2.1 == m)).map
      (fun k2 => df.countP (fun e => tripOf e == k2))).sum :=
    le_trans (hc1 k0 hk0)
      (List.single_le_sum (fun x _ => Nat.zero_le x) _ (List.mem_map_of_mem _ hk0))
  have hTne : (((((df.map tripOf).dedup).filter (fun k2 => k2.1 == m)).map
      (fun k2 => df.countP (fun e => tripOf e == k2))).sum : ℚ) ≠ 0 :=
    Nat.cast_ne_zero.mpr (by omega)
  have hxsum : ((((df.map tripOf).dedup).filter (fun k => k.1 == m)).map
      (fun k => (df.countP (fun e => tripOf e == k) : ℚ) /
        (((((df.map tripOf).dedup).filter (fun k2 => k2.1 == m)).map
          (fun k2 => df.countP (fun e => tripOf e == k2))).sum : ℚ) * 100)).sum = 100 := by
    have h1 : (((df.map tripOf).dedup).filter (fun k => k.1 == m)).map
        (fun k => (df.countP (fun e => tripOf e == k) : ℚ) /
          (((((df.map tripOf).dedup).filter (fun k2 => k2.1 == m)).map
            (fun k2 => df.countP (fun e => tripOf e == k2))).sum : ℚ) * 100) =
        (((df.map tripOf).dedup).filter (fun k => k.1 == m)).map
        (fun k => (df.countP (fun e => tripOf e == k) : ℚ) *
          (100 / (((((df.map tripOf).dedup).filter (fun k2 => k2.1 == m)).map
            (fun k2 => df.countP (fun e => tripOf e == k2))).sum : ℚ))) :=
      List.map_congr_left (fun k _ => by ring)
    rw [h1, List.sum_map_mul_right]
    have h2 : (((df.map tripOf).dedup).filter (fun k => k.1 == m)).map
        (fun k => (df.countP (fun e => tripOf e == k) : ℚ)) =
        List.map Nat.cast ((((df.map tripOf).dedup).filter (fun k => k.1 == m)).map
          (fun k => df.countP (fun e => tripOf e == k))) := by
      rw [List.map_map]
      rfl
    rw [h2, ← Nat.cast_list_sum, mul_comm, div_mul_cancel₀ _ hTne]
  have hclose := abs_sum_round2_sub_sum (((df.map tripOf).dedup).filter (fun k => k.1 == m))
    (fun k => (df.countP (fun e => tripOf e == k) : ℚ) /
      (((((df.map tripOf).dedup).filter (fun k2 => k2.1 == m)).map
        (fun k2 => df.countP (fun e => tripOf e == k2))).sum : ℚ) * 100)
  rw [hxsum] at hclose
  have hlen : ((((df.map tripOf).dedup).filter (fun k => k.1 == m)).length : ℚ) / 200 ≤
      ((((df.map tripOf).dedup).filter (fun k => k.1 == m)).length : ℚ) / 100 := by
    have h0 : (0 : ℚ) ≤ ((((df.map tripOf).dedup).filter (fun k => k.1 == m)).length : ℚ) :=
      Nat.cast_nonneg _
    linarith
  linarith [hclose]

/-- Witness for C6 at month 1 of the scenario table. -/
theorem df_percent_sum_100_witness :
    (process_orders_pandas scenDf).2.filter (fun r => r.order_created_month == 1) ≠ [] ∧
    |(((process_orders_pandas scenDf).2.filter
        (fun r => r.order_created_month == 1)).map (fun r => r.percentual)).sum - 100|
      ≤ (((process_orders_pandas scenDf).2.filter
          (fun r => r.order_created_month == 1)).length : ℚ) / 100 :=
  ⟨by decide, df_percent_sum_100 scenDf 1 (by decide)⟩

/-! ## C3: lag column lemmas -/

theorem mkRow_prev_none (df : List Event) (e : Event) :
    (mkRow df (e, none)).prev_order_time = none := rfl

theorem mkRow_diff_none (df : List Event) (e : Event) :
    (mkRow df (e, none)).diff_days = none := rfl

theorem mkRow_prev_some (df : List Event) (e q : Event) :
    (mkRow df (e, some q)).prev_order_time =
      if q.customer_id == e.customer_id then some q.order_created_at else none := rfl

theorem mkRow_diff_some (df : List Event) (e q : Event) :
    (mkRow df (e, some q)).diff_days =
      if q.customer_id == e.customer_id
        then some ((e.order_created_at - q.order_created_at) / 86400) else none := by
  have h0 : (mkRow df (e, some q)).diff_days =
      (if q.customer_id == e.customer_id then some q.order_created_at else none).map
        (fun p => (e.order_created_at - p) / 86400) := rfl
  rw [h0]
  split <;> rfl

/-- Every row of the processed table is built from a position of the
sorted event list paired with its lag predecessor. -/
theorem mem_processed_idx (df : List Event) (r : OrderRow)
    (hr : r ∈ (process_orders_pandas df).1) :
    ∃ i, ∃ hi : i < (lagged (List.insertionSort custTimeLe df)).length,
      r = mkRow df ((lagged (List.insertionSort custTimeLe df)).get ⟨i, hi⟩) := by
  replace hr : r ∈ (lagged (List.insertionSort custTimeLe df)).map (mkRow df) :=
    (List.perm_insertionSort custTimeDesc _).mem_iff.mp hr
  obtain ⟨i, hi, hget⟩ := List.getElem_of_mem hr
  rw [List.length_map] at hi
  refine ⟨i, hi, ?_⟩
  rw [← hget, List.getElem_map]
  simp [List.get_eq_getElem]

/-- Positions of a sorted event list are ordered by the sort key. -/
theorem sorted_rel (l : List Event) (hs : List.Sorted custTimeLe l) (i j : Nat)
    (hi : i < l.length) (hj : j < l.length) (hij : i < j) :
    custTimeLe (l.get ⟨i, hi⟩) (l.get ⟨j, hj⟩) :=
  hs.rel_get_of_lt (Fin.mk_lt_mk.mpr hij)

/-- Unfolded form of the ascending sort key. -/
theorem custTimeLe_elim {a b : Event} (h : custTimeLe a b) :
    a.customer_id < b.customer_id ∨
      (a.customer_id = b.customer_id ∧ a.order_created_at ≤ b.order_created_at) := h

/-- C3: in the processed table, a customer with exactly one event has null
`prev_order_time` and `diff_days`; and when a customer has a unique event
at time `t2`, some event at time `t1 < t2`, and no event strictly between
them, every row at `t2` has `prev_order_time = t1` and `diff_days` equal
to the whole-day span between them. -/
theorem process_orders_lag :
    ∀ (df : List Event) (c : Nat),
      ((df.countP (fun e => e.customer_id == c) = 1) →
        ∀ r ∈ (process_orders_pandas df).1, r.customer_id = c →
          r.prev_order_time = none ∧ r.diff_days = none) ∧
      (∀ t1 t2 : Nat,
        (∃ e1 ∈ df, e1.customer_id = c ∧ e1.order_created_at = t1) →
        df.countP (fun e => e.customer_id == c && e.order_created_at == t2) = 1 →
        t1 < t2 →
        (∀ e ∈ df, e.customer_id = c →
          ¬(t1 < e.order_created_at ∧ e.order_created_at < t2)) →
        ∀ r ∈ (process_orders_pandas df).1, r.customer_id = c →
          r.order_created_at = t2 →
          r.prev_order_time = some t1 ∧ r.diff_days = some ((t2 - t1) / 86400)) := by
  intro df c
  set S := List.insertionSort custTimeLe df with hSdef
  have hSsorted : List.Sorted custTimeLe S := List.sorted_insertionSort custTimeLe df
  have hlen : (lagged S).length = S.length := lagged_length S
  constructor
  · -- part (a): single-event customers have null lag columns
    intro hcount r hr hc
    have hScount : S.countP (fun e => e.customer_id == c) ≤ 1 := by
      rw [(List.perm_insertionSort custTimeLe df).countP_eq, hcount]
    obtain ⟨i, hi, rfl⟩ := mem_processed_idx df r hr
    cases i with
    | zero =>
      rw [lagged_getElem_zero] at hc ⊢
      exact ⟨mkRow_prev_none _ _, mkRow_diff_none _ _⟩
    | succ k =>
      rw [lagged_getElem_succ] at hc ⊢
      have hk1 : k + 1 < S.length := by rwa [hlen] at hi
      have hk : k < S.length := by omega
      have hck : (S.get ⟨k + 1, hk1⟩).customer_id = c := hc
      have hqne : (S.get ⟨k, hk⟩).customer_id ≠ (S.get ⟨k + 1, hk1⟩).customer_id := by
        intro heq
        have hkk := countP_le_one_eq_of_getElem S (fun e => e.customer_id == c) hScount
          k (k + 1) hk hk1
          (by
            show ((S.get ⟨k, hk⟩).customer_id == c) = true
            rw [heq, hck]
            simp)
          (by
            show ((S.get ⟨k + 1, hk1⟩).customer_id == c) = true
            rw [hck]
            simp)
        omega
      have hcond : ¬(((S.get ⟨k, hk⟩).customer_id ==
          (S.get ⟨k + 1, hk1⟩).customer_id) = true) := by
        simpa using hqne
      exact ⟨by rw [mkRow_prev_some, if_neg hcond],
        by rw [mkRow_diff_some, if_neg hcond]⟩
  · -- part (b): the lag of the row at t2 is the event at t1
    intro t1 t2 he1 hcnt2 hlt hbetween r hr hc hval
    obtain ⟨e1, he1mem, he1c, he1t⟩ := he1
    have he1S : e1 ∈ S := (List.perm_insertionSort custTimeLe df).mem_iff.mpr he1mem
    obtain ⟨i1, hi1, hgete1⟩ := List.getElem_of_mem he1S
    have he1g : e1 = S.get ⟨i1, hi1⟩ := by
      rw [List.get_eq_getElem]
      exact hgete1.symm
    have hScnt2 : S.countP (fun e => e.customer_id == c && e.order_created_at == t2) ≤ 1 := by
      rw [(List.perm_insertionSort custTimeLe df).countP_eq, hcnt2]
    obtain ⟨i, hi, rfl⟩ := mem_processed_idx df r hr
    cases i with
    | zero =>
      rw [lagged_getElem_zero] at hc hval
      exfalso
      have h0 : 0 < S.length := by rwa [hlen] at hi
      have hc0 : (S.get ⟨0, h0⟩).customer_id = c := hc
      have ht0 : (S.get ⟨0, h0⟩).order_created_at = t2 := hval
      rcases Nat.eq_zero_or_pos i1 with h10 | h10
      · subst h10
        rw [he1g] at he1t
        have ht0' : (S.get ⟨0, hi1⟩).order_created_at = t2 := ht0
        omega
      · have hrel := sorted_rel S hSsorted 0 i1 h0 hi1 h10
        rw [← he1g] at hrel
        rcases custTimeLe_elim hrel with hlt2 | ⟨_, hle2⟩
        · rw [hc0, he1c] at hlt2
          omega
        · rw [ht0, he1t] at hle2
          omega
    | succ k =>
      rw [lagged_getElem_succ] at hc hval ⊢
      have hk1 : k + 1 < S.length := by rwa [hlen] at hi
      have hk : k < S.length := by omega
      have hck : (S.get ⟨k + 1, hk1⟩).customer_id = c := hc
      have htk : (S.get ⟨k + 1, hk1⟩).order_created_at = t2 := hval
      have hqmem : S.get ⟨k, hk⟩ ∈ df :=
        (List.perm_insertionSort custTimeLe df).mem_iff.mp (List.get_mem S k hk)
      have hrelk := custTimeLe_elim (sorted_rel S hSsorted k (k + 1) hk hk1 (by omega))
      by_cases hqc : (S.get ⟨k, hk⟩).customer_id = c
      · -- the predecessor is forced to be the event at t1
        have hqle : (S.get ⟨k, hk⟩).order_created_at ≤ t2 := by
          rcases hrelk with hlt2 | ⟨_, hle2⟩
          · rw [hqc, hck] at hlt2
            omega
          · rwa [htk] at hle2
        have hqt2 : (S.get ⟨k, hk⟩).order_created_at ≠ t2 := by
          intro hqe
          have hkk := countP_le_one_eq_of_getElem S
            (fun e => e.customer_id == c && e.order_created_at == t2) hScnt2
            k (k + 1) hk hk1
            (by
              show ((S.get ⟨k, hk⟩).customer_id == c &&
                ((S.get ⟨k, hk⟩).order_created_at == t2)) = true
              rw [hqc, hqe]
              simp)
            (by
              show ((S.get ⟨k + 1, hk1⟩).customer_id == c &&
                ((S.get ⟨k + 1, hk1⟩).order_created_at == t2)) = true
              rw [hck, htk]
              simp)
          omega
        have hqle1 : (S.get ⟨k, hk⟩).order_created_at ≤ t1 := by
          have hb := hbetween (S.get ⟨k, hk⟩) hqmem hqc
          omega
        have hge1 : t1 ≤ (S.get ⟨k, hk⟩).order_created_at := by
          rcases Nat.lt_trichotomy i1 (k + 1) with h1c | h1c | h1c
          · rcases Nat.lt_or_ge i1 k with h2c | h2c
            · have hrel2 := sorted_rel S hSsorted i1 k hi1 hk h2c
              rw [← he1g] at hrel2
              rcases custTimeLe_elim hrel2 with hlt2 | ⟨_, hle2⟩
              · rw [he1c, hqc] at hlt2
                omega
              · rwa [he1t] at hle2
            · have h2c' : i1 = k := by omega
              subst h2c'
              have hq : S.get ⟨i1, hk⟩ = e1 := by
                rw [he1g]
              rw [hq, he1t]
          · exfalso
            subst h1c
            rw [he1g] at he1t
            have htk2 : (S.get ⟨k + 1, hi1⟩).order_created_at = t2 := htk
            omega
          · exfalso
            have hrel2 := sorted_rel S hSsorted (k + 1) i1 hk1 hi1 h1c
            rw [← he1g] at hrel2
            rcases custTimeLe_elim hrel2 with hlt2 | ⟨_, hle2⟩
            · rw [hck, he1c] at hlt2
              omega
            · rw [htk, he1t] at hle2
              omega
        have hqt1 : (S.get ⟨k, hk⟩).order_created_at = t1 := by omega
        have hcond : (((S.get ⟨k, hk⟩).customer_id ==
            (S.get ⟨k + 1, hk1⟩).customer_id)) = true := by
          rw [hqc, hck]
          simp
        constructor
        · rw [mkRow_prev_some, if_pos hcond, hqt1]
        · rw [mkRow_diff_some, if_pos hcond, hqt1, htk]
      · -- a predecessor from another customer is impossible here
        exfalso
        have hqlt : (S.get ⟨k, hk⟩).customer_id < c := by
          rcases hrelk with hlt2 | ⟨heq2, _⟩
          · rwa [hck] at hlt2
          · rw [hck] at heq2
            exact absurd heq2 hqc
        rcases Nat.lt_trichotomy i1 (k + 1) with h1c | h1c | h1c
        · rcases Nat.lt_or_ge i1 k with h2c | h2c
          · have hrel2 := sorted_rel S hSsorted i1 k hi1 hk h2c
            rw [← he1g] at hrel2
            rcases custTimeLe_elim hrel2 with hlt2 | ⟨heq2, _⟩
            · rw [he1c] at hlt2
              omega
            · rw [he1c] at heq2
              exact hqc heq2.symm
          · have h2c' : i1 = k := by omega
            subst h2c'
            have hq : S.get ⟨i1, hk⟩ = e1 := by
              rw [he1g]
            rw [hq, he1c] at hqc
            exact hqc rfl
        · subst h1c
          rw [he1g] at he1t
          have htk2 : (S.get ⟨k + 1, hi1⟩).order_created_at = t2 := htk
          omega
        · have hrel2 := sorted_rel S hSsorted (k + 1) i1 hk1 hi1 h1c
          rw [← he1g] at hrel2
          rcases custTimeLe_elim hrel2 with hlt2 | ⟨_, hle2⟩
          · rw [hck, he1c] at hlt2
            omega
          · rw [htk, he1t] at hle2
            omega

/-- Witness for C3 on `gapDf`: the single-event customer 1 has null lag
columns, and customer 2's second order (3 days and 5 seconds after the
first) carries `prev_order_time = 0` and `diff_days = 3`. -/
theorem process_orders_lag_witness :
    (gapDf.countP (fun e => e.customer_id == 1) = 1 ∧
      (process_orders_pandas gapDf).1.get ⟨2, by decide⟩ ∈ (process_orders_pandas gapDf).1 ∧
      ((process_orders_pandas gapDf).1.get ⟨2, by decide⟩).customer_id = 1 ∧
      ((process_orders_pandas gapDf).1.get ⟨2, by decide⟩).prev_order_time = none ∧
      ((process_orders_pandas gapDf).1.get ⟨2, by decide⟩).diff_days = none) ∧
    ((process_orders_pandas gapDf).1.get ⟨1, by decide⟩).prev_order_time = some 0 ∧
    ((process_orders_pandas gapDf).1.get ⟨1, by decide⟩).diff_days = some 3 :=
  ⟨⟨by decide, List.get_mem _ _ _, by decide,
    (process_orders_lag gapDf 1).1 (by decide)
      ((process_orders_pandas gapDf).1.get ⟨2, by decide⟩)
      (List.get_mem _ _ _) (by decide)⟩,
    by
      have h := (process_orders_lag gapDf 2).2 0 259205 (by decide) (by decide)
        (by decide) (by decide)
        ((process_orders_pandas gapDf).1.get ⟨1, by decide⟩)
        (List.get_mem _ _ _) (by decide) (by decide)
      exact ⟨h.1, h.2⟩⟩
